import Mathlib

/-!
Verification of the scripted-mixer-gstreamer specification against its source.

The Rust sources (src/script/mod.rs, src/script/action.rs, src/gtk_manage/mod.rs,
src/error/mod.rs) are shallowly embedded below.  Conventions used throughout:

* Fallible Rust code returning `ParseResult<T>` is embedded as `Outcome T`:
  `.ok` for `Ok`, `.error` for `Err(ParseError)` (a reported failure), and
  `.crash` for a Rust panic (`unwrap` on `None`/`Err`, out-of-bounds indexing,
  arithmetic underflow).
* Machine integers are `Int`/`Nat` with explicit wrapping where the source
  relies on casts (`u64 as i64` at gtk_manage/mod.rs:160) or on release-mode
  wrapping (`usize` subtraction at script/mod.rs:98, `i32` addition at
  gtk_manage/mod.rs:192-199).
* `f64`/`f32` values are idealized: parsed numeric literals become `ℚ` and the
  animation interpolation is carried out over `ℝ` with `Real.cos`; rounding of
  the binary floating-point formats is not modelled.
* Rust `HashMap`s are embedded as association lists; iteration order, which is
  unspecified for `HashMap`, is taken to be list order.
* External gstreamer/GTK capabilities (rendering a pipeline description,
  querying playback position, moving a window) are abstracted as parameters:
  a pipeline is a bag of named sub-elements, and playback positions are
  supplied by per-tick oracles.
-/

/-- Result of running a piece of fallible Rust code: `Ok`, a reported
`ParseError` (src/error/mod.rs:20), or a panic. -/
inductive Outcome (α : Type) where
  | ok (val : α)
  | error (err : String)
  | crash (msg : String)
deriving Repr, DecidableEq

/-- Whitespace splitter on character lists; `acc` is the current token,
reversed. -/
def splitWSAux : List Char → List Char → List String
  | [], acc => if acc.isEmpty then [] else [String.mk acc.reverse]
  | c :: cs, acc =>
    if c.isWhitespace then
      if acc.isEmpty then splitWSAux cs []
      else String.mk acc.reverse :: splitWSAux cs []
    else splitWSAux cs (c :: acc)

/-- Rust `str::split_whitespace`: split on whitespace, dropping empty pieces. -/
def tokens (s : String) : List String := splitWSAux s.data []

/-- Decimal digit value of a character, if any. -/
def digitVal (c : Char) : Option Nat :=
  if '0' ≤ c ∧ c ≤ '9' then some (c.toNat - '0'.toNat) else none

/-- Accumulate a decimal digit string left to right. -/
def parseDigitsAux : List Char → Nat → Option Nat
  | [], acc => some acc
  | c :: cs, acc =>
    match digitVal c with
    | some d => parseDigitsAux cs (acc * 10 + d)
    | none => none

/-- Parse a nonempty string of decimal digits as a `Nat`. -/
def parseDigits (cs : List Char) : Option Nat :=
  match cs with
  | [] => none
  | _ => parseDigitsAux cs 0

/-- Strip one optional leading `+` sign. -/
def dropPlus : List Char → List Char
  | '+' :: rest => rest
  | cs => cs

/-- Rust `usize::from_str`: optional `+`, then digits; overflow is an error.
Models the decimal literal subset of the grammar actually used by scripts. -/
def parseUsize (s : String) : Option Nat :=
  match parseDigits (dropPlus s.data) with
  | some n => if n < 2 ^ 64 then some n else none
  | none => none

/-- Sign-aware decimal integer parse (shared by `i32::from_str`). -/
def parseIntRaw (s : String) : Option Int :=
  match s.data with
  | '+' :: rest => (parseDigits rest).map Int.ofNat
  | '-' :: rest => (parseDigits rest).map (fun n => -(n : Int))
  | cs => (parseDigits cs).map Int.ofNat

/-- Rust `i32::from_str`: decimal integer constrained to `[-2^31, 2^31)`. -/
def parseI32 (s : String) : Option Int :=
  match parseIntRaw s with
  | some v => if -(2 ^ 31) ≤ v ∧ v < 2 ^ 31 then some v else none
  | none => none

/-- Split a character list at the first `.`, if any. -/
def splitAtDot : List Char → List Char × Option (List Char)
  | [] => ([], none)
  | c :: rest =>
    if c = '.' then ([], some rest)
    else
      let (a, b) := splitAtDot rest
      (c :: a, b)

/-- Magnitude of a decimal literal `digits[.digits]` as an exact rational. -/
def parseQMag (cs : List Char) : Option ℚ :=
  let (ip, fp) := splitAtDot cs
  match fp with
  | none => (parseDigits ip).map (fun n => (n : ℚ))
  | some f =>
    match ip, f with
    | [], [] => none
    | [], f => (parseDigits f).map (fun m => (m : ℚ) / (10 : ℚ) ^ f.length)
    | ip, [] => (parseDigits ip).map (fun n => (n : ℚ))
    | ip, f =>
      match parseDigits ip, parseDigits f with
      | some n, some m => some ((n : ℚ) + (m : ℚ) / (10 : ℚ) ^ f.length)
      | _, _ => none

/-- Rust `f64::from_str` / `f32::from_str`, idealized: the decimal literal is
read exactly into `ℚ` (no binary rounding; the exponent/inf/nan forms of the
grammar, unused by the scripts, are not modelled). -/
def parseQ (s : String) : Option ℚ :=
  match s.data with
  | '-' :: rest => (parseQMag rest).map Neg.neg
  | '+' :: rest => parseQMag rest
  | cs => parseQMag cs

/-- Truncation toward zero, the rounding used by Rust `as`-casts from floats. -/
noncomputable def truncR (r : ℝ) : Int :=
  if 0 ≤ r then ⌊r⌋ else -⌊-r⌋

/-- Truncation toward zero on exact rationals. -/
def truncQ (q : ℚ) : Int :=
  if 0 ≤ q then ⌊q⌋ else -⌊-q⌋

/-- Rust `as u64` cast of a (truncated) float: saturating at the bounds. -/
def satU64 (z : Int) : Nat := (max 0 (min z (2 ^ 64 - 1))).toNat

/-- Rust `as i32` cast of a (truncated) float: saturating at the bounds. -/
def sat32 (z : Int) : Int := max (-(2 ^ 31)) (min z (2 ^ 31 - 1))

/-- Wrapping to the `i32` range (release-mode `i32` arithmetic). -/
def wrap32 (z : Int) : Int := (z + 2 ^ 31) % 2 ^ 32 - 2 ^ 31

/-- Rust `u64 as i64`: a wrapping cast (gtk_manage/mod.rs:160). -/
def toI64 (n : Nat) : Int :=
  if n < 2 ^ 63 then (n : Int) else (n : Int) - 2 ^ 64

/-- Association list lookup (embeds `HashMap::get`). -/
def lookupA {β : Type} : List (String × β) → String → Option β
  | [], _ => none
  | (k', v) :: rest, k => if k' = k then some v else lookupA rest k

/-- Association list insert-or-replace (embeds `HashMap::insert`). -/
def insertA {β : Type} : List (String × β) → String → β → List (String × β)
  | [], k, v => [(k, v)]
  | (k', v') :: rest, k, v =>
    if k' = k then (k, v) :: rest else (k', v') :: insertA rest k v

/-- Alias so that constructor names below can shadow the builtin types. -/
abbrev Str := String

/-- Embeds `ParsedSetting` (script/mod.rs:30): tagged scalar union.  The `Int`
payload is an `i32` in the source; `Float` is an `f64`, idealized as `ℚ`. -/
inductive ParsedSetting where
  | Int (i : ℤ)
  | Float (f : ℚ)
  | String (s : Str)
deriving Repr, DecidableEq

/-- Embeds `Template` (script/mod.rs:36): graph description, expected argument count,
and target-key → list of `(property, type-tag, value)` triples.  The settings
`HashMap` is embedded as an association list in insertion order. -/
structure Template where
  pipeline : String
  arg_count : Nat
  settings : List (String × List (String × String × String))
deriving Repr, DecidableEq

/-- Rendered pipeline handle, abstracted to its name and the set of named
sub-elements reachable through `by_name`. -/
structure GPipe where
  pname : String
  elems : List String
deriving Repr, DecidableEq

/-- Value resolution inside `Template::generate` (script/mod.rs:93-101):
a value starting with `$` is a 1-indexed argument reference.  The bound check
(line 95) only rejects `index > args.len()`; the subsequent `args[index - 1]`
is a `usize` subtraction followed by a slice index, which for `index = 0`
wraps (release mode) to `2^64 - 1` and panics on the out-of-bounds access. -/
def resolveVal (args : List String) (val : String) : Outcome String :=
  match val.data with
  | '$' :: rest =>
    match parseUsize (String.mk rest) with
    | none => .error "Could not parse argument index"
    | some index =>
      if index > args.length then
        .error "Argument index greater than number of arguments"
      else
        if h : (index + (2 ^ 64 - 1)) % 2 ^ 64 < args.length then
          .ok (args.get ⟨(index + (2 ^ 64 - 1)) % 2 ^ 64, h⟩)
        else .crash "index out of bounds"
  | _ => .ok val

/-- The `"raw"` branch of the settings loop (script/mod.rs:103-114): parse a
resolved value per type tag into a `ParsedSetting`. -/
def parseRawSetting (type_ : String) (actual_val : String) : Outcome ParsedSetting :=
  if type_ = "int" then
    match parseI32 actual_val with
    | some v => .ok (.Int v)
    | none => .error "Failed to parse setting as int"
  else if type_ = "float" then
    match parseQ actual_val with
    | some v => .ok (.Float v)
    | none => .error "Failed to parse setting as float"
  else if type_ = "string" then .ok (.String actual_val)
  else .error ("Unknown type: " ++ type_)

/-- The four orientation constants accepted by `set_property`. -/
inductive VideoOrientationMethod where
  | identity
  | rot90r
  | rot180
  | rot90l
deriving Repr, DecidableEq

/-- Embeds `set_property` (script/action.rs:128-157): the single choke point for
typed property application.  The actual `element.set_property` side effect is
external; the embedding keeps the validation and coercion outcome. -/
def set_property (type_ value : String) : Outcome Unit :=
  if type_ = "int" then
    match parseI32 value with
    | some _ => .ok ()
    | none => .error ("Unable to parse " ++ value ++ " as " ++ type_)
  else if type_ = "float" then
    match parseQ value with
    | some _ => .ok ()
    | none => .error ("Unable to parse " ++ value ++ " as " ++ type_)
  else if type_ = "string" then .ok ()
  else if type_ = "GstOrientation" then
    if value = "0" ∨ value = "1" ∨ value = "2" ∨ value = "3" then .ok ()
    else .error ("Unknown GstOrientation index: " ++ value)
  else .error ("Unknown parameter type: " ++ type_)

/-- Inner loop of `Template::generate` over the triples of one target key
(script/mod.rs:92-120).  `ext` is the exported-settings map being built. -/
def genTriples (gp : GPipe) (args : List String) (key : String) :
    List (String × String × String) → List (String × ParsedSetting) →
    Outcome (List (String × ParsedSetting))
  | [], ext => .ok ext
  | (prop, type_, val) :: rest, ext =>
    match resolveVal args val with
    | .error e => .error e
    | .crash m => .crash m
    | .ok actual =>
      if key = "raw" then
        match parseRawSetting type_ actual with
        | .ok s => genTriples gp args key rest (insertA ext prop s)
        | .error e => .error e
        | .crash m => .crash m
      else
        if key ∈ gp.elems then
          match set_property type_ actual with
          | .ok _ => genTriples gp args key rest ext
          | .error e => .error ("set_property: " ++ e)
          | .crash m => .crash m
        else .error ("Could not obtain element " ++ key)

/-- Outer loop of `Template::generate` over the settings map. -/
def genSettings (gp : GPipe) (args : List String) :
    List (String × List (String × String × String)) →
    List (String × ParsedSetting) → Outcome (List (String × ParsedSetting))
  | [], ext => .ok ext
  | (key, triples) :: rest, ext =>
    match genTriples gp args key triples ext with
    | .ok ext' => genSettings gp args rest ext'
    | .error e => .error e
    | .crash m => .crash m

/-- Embeds `Template::generate` (script/mod.rs:82-124).  `render` abstracts the
external `gstreamer::parse_launch`; naming the handle and the cast to
`Pipeline` (lines 87-88) always succeed for a rendered handle and are
embedded by stamping the instance name onto the `GPipe`. -/
def Template.generate (render : String → Outcome GPipe) (t : Template)
    (name : String) (args : List String) :
    Outcome (GPipe × List (String × ParsedSetting)) :=
  if args.length ≠ t.arg_count then .error "Incorrect number of arguments"
  else
    match render t.pipeline with
    | .error _ => .error "Could not render pipeline"
    | .crash m => .crash m
    | .ok gp =>
      match genSettings { gp with pname := name } args t.settings [] with
      | .ok ext => .ok ({ gp with pname := name }, ext)
      | .error e => .error e
      | .crash m => .crash m

/-- The `"new"` branch of `Pattern::parse_pattern` (script/mod.rs:213-224):
look up the template (`.get(key).unwrap()`, a panic when missing),
instantiate it, and insert the pipe on success.  An `Err` from `generate`
aborts the whole script compilation. -/
def processNew (render : String → Outcome GPipe)
    (blocks : List (String × Template))
    (pipes : List (String × (GPipe × List (String × ParsedSetting))))
    (key name : String) (args : List String) :
    Outcome (List (String × (GPipe × List (String × ParsedSetting)))) :=
  match lookupA blocks key with
  | none => .crash "unwrap on None"
  | some block =>
    match block.generate render name args with
    | .ok (elem, settings) => .ok (insertA pipes name (elem, settings))
    | .error e => .error ("block.generate: " ++ e)
    | .crash m => .crash m

/-- The gstreamer playback states reachable from `PlayAction::exec`. -/
inductive GstState where
  | playing
  | paused
  | ready
  | null
deriving Repr, DecidableEq

/-- The four `EventAction` variants (script/action.rs).  Pipelines and
sub-elements are referred to by name; `SeekAction`'s `f64` fields are
idealized as `ℚ`. -/
inductive EAction where
  | window (window action : String) (settings : List String)
  | play (pipe action : String)
  | seek (pipe : String) (rate time : ℚ)
  | setProp (pipe elem prop type_ setting : String)
deriving Repr, DecidableEq

/-- Embeds `PlayAction::exec` (script/action.rs:62-85): map the stored token to a
gstreamer state; any token other than `start`/`pause`/`ready`/`null` panics.
The `set_state` engine call itself only logs, so the state is the result. -/
def playExec (a : String) : Outcome GstState :=
  if a = "start" then .ok .playing
  else if a = "pause" then .ok .paused
  else if a = "ready" then .ok .ready
  else if a = "null" then .ok .null
  else .crash ("Unknown pipeline state: " ++ a)

/-- Embeds `SeekAction::exec` (script/action.rs:96-107): the absolute seek position
in nanoseconds handed to `ClockTime::from_nseconds` is
`(self.time * 1000000.0) as u64`. -/
def seekPosNanos (time : ℚ) : Nat := satU64 (truncQ (time * 1000000))

/-- Nanosecond conversion of an `on progress` trigger time
(script/mod.rs:266): `(time * 1000000000.0) as u64`. -/
def progressNanos (time : ℚ) : Nat := satU64 (truncQ (time * 1000000000))

/-- Rust `[&str]::join(" ")`. -/
def joinSpace : List String → String
  | [] => ""
  | [x] => x
  | x :: rest => x ++ " " ++ joinSpace rest

/-- Embeds `parse_single_event` (script/action.rs:199-255).  `pipes` is the pattern's
pipe table; slice indexing `args[k]` is embedded as `List.get?` with a panic
on `none`. -/
def parse_single_event (pipes : List (String × GPipe)) (args : List String) :
    Outcome EAction :=
  match args.get? 0 with
  | none => .crash "index out of bounds"
  | some a0 =>
    if a0 = "act" then
      match args.get? 1 with
      | none => .crash "index out of bounds"
      | some pname =>
        match lookupA pipes pname with
        | none => .error ("Unknown pipeline: " ++ pname)
        | some gp =>
          match args.get? 2 with
          | none => .crash "index out of bounds"
          | some verb =>
            if verb = "prop" then
              match args.get? 3 with
              | none => .crash "index out of bounds"
              | some ename =>
                if ename ∈ gp.elems then
                  match args.get? 4, args.get? 5 with
                  | some prop, some type_ =>
                    .ok (.setProp pname ename prop type_ (joinSpace (args.drop 6)))
                  | _, _ => .crash "index out of bounds"
                else .error ("Unknown element: " ++ ename)
            else if verb = "play" then
              match args.get? 3 with
              | none => .crash "index out of bounds"
              | some st => .ok (.play pname st)
            else if verb = "seek" then
              match args.get? 3 with
              | none => .crash "index out of bounds"
              | some tArg =>
                match parseQ tArg with
                | none => .error ("Could not parse as float: " ++ tArg)
                | some time =>
                  match args.get? 4 with
                  | none => .crash "index out of bounds"
                  | some rArg =>
                    match parseQ rArg with
                    | none => .error ("Could not parse as float: " ++ rArg)
                    | some rate => .ok (.seek pname rate time)
            else if verb = "window" then
              match args.get? 3 with
              | none => .crash "index out of bounds"
              | some wact => .ok (.window pname wact (args.drop 4))
            else .error ("Unkown event type: " ++ verb)
    else .error ("Unknown event header: " ++ a0)

/-- The `wrap` loop of `parse_leading_event` (script/action.rs:179-192):
read lines until one whose first token is the closing sentinel `parw`.
`cmd_iter.next().unwrap()` panics when the iterator is exhausted, and
`args[0]` panics on a line with no tokens.  Returns the collected actions
and the unconsumed lines. -/
def parseWrapLoop (pipes : List (String × GPipe)) :
    List String → Outcome (List EAction × List String)
  | [] => .crash "unwrap on None"
  | line :: rest =>
    match (tokens line).get? 0 with
    | none => .crash "index out of bounds"
    | some a0 =>
      if a0 = "parw" then .ok ([], rest)
      else
        match parse_single_event pipes (tokens line) with
        | .ok t =>
          match parseWrapLoop pipes rest with
          | .ok (acts, rem) => .ok (t :: acts, rem)
          | .error e => .error e
          | .crash m => .crash m
        | .error e => .error ("wrap: " ++ e)
        | .crash m => .crash m

/-- Embeds `parse_leading_event` (script/action.rs:159-197): dispatch on the leading
condition token of an event list. -/
def parse_leading_event (pipes : List (String × GPipe)) (args : List String)
    (cmd_iter : List String) : Outcome (List EAction × List String) :=
  match args.get? 0 with
  | none => .crash "index out of bounds"
  | some a0 =>
    if a0 = "terminate" then .ok ([.window "" "terminate" []], cmd_iter)
    else if a0 = "act" then
      match parse_single_event pipes args with
      | .ok t => .ok ([t], cmd_iter)
      | .error e => .error ("act: " ++ e)
      | .crash m => .crash m
    else if a0 = "wrap" then parseWrapLoop pipes cmd_iter
    else .error ("Unknown condition: " ++ a0)

/-- One pass of the time-event loop (gtk_manage/mod.rs:149-167).  `events` is
the `time_events` key list, `pos` the per-pipe position query for this tick
(`query_position_generic`, `none` = unavailable), `fired` the `nano_map`
fired-set.  Returns the keys fired this tick (in iteration order) and the
updated fired-set.  The `pipes.get(name)` panic at line 155 is unreachable
for parsed patterns (a pipe is checked to exist when the `on progress` entry
is registered, script/mod.rs:263) and is folded into the oracle. -/
def fireTick (events : List (String × Nat)) (pos : String → Option Int)
    (fired : List (String × Nat)) :
    List (String × Nat) × List (String × Nat) :=
  match events with
  | [] => ([], fired)
  | (name, nanos) :: rest =>
    if (name, nanos) ∈ fired then fireTick rest pos fired
    else
      match pos name with
      | none => fireTick rest pos fired
      | some d =>
        if d > toI64 nanos then
          let out := fireTick rest pos ((name, nanos) :: fired)
          ((name, nanos) :: out.1, out.2)
        else fireTick rest pos fired

/-- A whole run of the scheduler restricted to the time-event pass: one
position oracle per tick, threading `nano_map`; the result is the
concatenated trace of fired keys. -/
def fireRun (events : List (String × Nat)) :
    List (String → Option Int) → List (String × Nat) → List (String × Nat)
  | [], _ => []
  | pos :: ticks, fired =>
    let out := fireTick events pos fired
    out.1 ++ fireRun events ticks out.2

/-- Embeds `MovingPart` (gtk_manage/mod.rs:33-44).  The pipeline handle is referred
to by the pipe name; `end` is spelled `end_` (`end` is reserved in Lean). -/
structure MPart where
  pipe : String
  window : String
  start : Int
  end_ : Int
  start_x : Int
  end_x : Int
  start_y : Int
  end_y : Int
  path_x : String
  path_y : String
deriving Repr, DecidableEq

/-- Embeds `f64::to_radians`: degrees to radians. -/
noncomputable def toRadians (d : ℝ) : ℝ := d * (Real.pi / 180)

/-- Per-axis interpolation offset (gtk_manage/mod.rs:192-199): the ease tag
`"mcos"` scales the axis delta by `1 - cos(frac * 90°)`; any other curve id
uses the full delta. -/
noncomputable def axisOffset (path : String) (diff : Int) (frac : ℝ) : ℝ :=
  if path = "mcos" then (diff : ℝ) * (1 - Real.cos (toRadians (frac * 90)))
  else (diff : ℝ)

/-- Absolute per-axis window coordinate while a `MovingPart` is inside its
interval: `start + (offset as i32)` with the source's release-mode wrapping
`i32` subtraction for the delta and addition for the result, and the
saturating float-to-`i32` cast of the offset. -/
noncomputable def axisAbs (path : String) (startC endC : Int) (frac : ℝ) : Int :=
  wrap32 (startC + sat32 (truncR (axisOffset path (wrap32 (endC - startC)) frac)))

/-- Interpolation fraction (gtk_manage/mod.rs:189). -/
noncomputable def timeFrac (p : MPart) (t : Int) : ℝ :=
  ((t - p.start : Int) : ℝ) / ((p.end_ - p.start : Int) : ℝ)

/-- Which branch of the per-part tick body (gtk_manage/mod.rs:170-201) runs:
position unavailable → `skip` (part kept, nothing moved); `windows.get`
failing would panic (`panicWin`); `time < start` → `pending` (no-op);
`time > end` → `finish` (snap to end coordinates, mark for removal);
otherwise `animate`. -/
inductive Branch where
  | skip
  | panicWin
  | pending
  | finish
  | animate
deriving Repr, DecidableEq

/-- Branch selection for one `MovingPart` on one tick. -/
def partBranch (windows : List String) (p : MPart) (t? : Option Int) : Branch :=
  match t? with
  | none => .skip
  | some t =>
    if p.window ∈ windows then
      if t < p.start then .pending
      else if t > p.end_ then .finish
      else .animate
    else .panicWin

/-- The window move issued for one `MovingPart` on one tick (`none` = the
window is left where it is; the `panicWin` branch, a real panic, issues no
move either). -/
noncomputable def partMove (windows : List String) (p : MPart)
    (t? : Option Int) : Option (Int × Int) :=
  match t? with
  | none => none
  | some t =>
    if p.window ∈ windows then
      if t < p.start then none
      else if t > p.end_ then some (p.end_x, p.end_y)
      else some (axisAbs p.path_x p.start_x p.end_x (timeFrac p t),
                 axisAbs p.path_y p.start_y p.end_y (timeFrac p t))
    else none

/-- Indices collected into `remove_parts` (gtk_manage/mod.rs:169-187):
the positions, counted from `k`, of the elements satisfying `ret`. -/
def collectRemove {α : Type} (ret : α → Bool) : List α → Nat → List Nat
  | [], _ => []
  | x :: xs, k =>
    if ret x then k :: collectRemove ret xs (k + 1)
    else collectRemove ret xs (k + 1)

/-- The removal loop (gtk_manage/mod.rs:203-207): remove each index, shifted
by the number of removals already performed. -/
def removeWithOffset {α : Type} : List α → List Nat → Nat → List α
  | l, [], _ => l
  | l, i :: rest, off => removeWithOffset (l.eraseIdx (i - off)) rest (off + 1)

/-- The surviving `moving_parts` after one tick's animation pass:
parts whose branch was `finish` are collected and removed. -/
def movingSurvivors (windows : List String) (pos : MPart → Option Int)
    (parts : List MPart) : List MPart :=
  removeWithOffset parts
    (collectRemove (fun p => decide (partBranch windows p (pos p) = .finish)) parts 0) 0

/-- Effect of `handle_message` (gtk_manage/mod.rs:214-266) on the scheduler:
`exit` = `std::process::exit(0)`; `preRun` = replay `pre_events`; `shown` /
`moved` = the successful window actions (both return `Ok(true)`); `failed` =
an `Err` that the tick loop merely logs; `crash` = a panic. -/
inductive MsgEffect where
  | exit
  | preRun
  | shown (window : String)
  | moved (part : MPart)
  | failed (err : String)
  | crash (msg : String)
deriving Repr, DecidableEq

/-- The tail of the `move` branch (gtk_manage/mod.rs:241-261) after the pipe
lookup succeeded: each field access `args[k]` panics when absent, each
`parse().unwrap()` panics on a malformed literal.  `f32` literals are
idealized as `ℚ`; times are scaled by `1e9` and truncated. -/
def parseMoveFields (window key : String) (args : List String) : MsgEffect :=
  match args.get? 1 with
  | none => .crash "index out of bounds"
  | some a1 =>
    match parseQ a1 with
    | none => .crash "unwrap on parse failure"
    | some t1 =>
      match args.get? 2 with
      | none => .crash "index out of bounds"
      | some a2 =>
        match parseI32 a2 with
        | none => .crash "unwrap on parse failure"
        | some x1 =>
          match args.get? 3 with
          | none => .crash "index out of bounds"
          | some a3 =>
            match parseI32 a3 with
            | none => .crash "unwrap on parse failure"
            | some y1 =>
              match args.get? 4 with
              | none => .crash "index out of bounds"
              | some a4 =>
                match parseQ a4 with
                | none => .crash "unwrap on parse failure"
                | some t2 =>
                  match args.get? 5 with
                  | none => .crash "index out of bounds"
                  | some a5 =>
                    match parseI32 a5 with
                    | none => .crash "unwrap on parse failure"
                    | some x2 =>
                      match args.get? 6 with
                      | none => .crash "index out of bounds"
                      | some a6 =>
                        match parseI32 a6 with
                        | none => .crash "unwrap on parse failure"
                        | some y2 =>
                          match args.get? 7, args.get? 8 with
                          | some a7, some a8 =>
                            .moved { pipe := key, window := window,
                                     start := truncQ (t1 * 1000000000),
                                     end_ := truncQ (t2 * 1000000000),
                                     start_x := x1, end_x := x2,
                                     start_y := y1, end_y := y2,
                                     path_x := a7, path_y := a8 }
                          | _, _ => .crash "index out of bounds"

/-- Embeds `handle_message` (gtk_manage/mod.rs:214-266).  `pipes` and `windows` are
the name tables; the two `args_iter.next().unwrap()` calls panic on messages
with fewer than two tokens. -/
def handle_message (pipes windows : List String) (msg : String) : MsgEffect :=
  if msg = " terminate" then .exit
  else if msg = "pre" then .preRun
  else
    match tokens msg with
    | [] => .crash "unwrap on None"
    | [_] => .crash "unwrap on None"
    | window :: action :: args =>
      if action = "show" then
        if window ∈ windows then .shown window
        else .failed ("Unknown window: " ++ action)
      else if action = "move" then
        match args.get? 0 with
        | none => .crash "index out of bounds"
        | some key =>
          if key ∈ pipes then parseMoveFields window key args
          else .failed ("Pipeline not found: " ++ key)
      else .failed ("Unknown action: " ++ action)

theorem truncQ_intCast (n : ℤ) : truncQ (n : ℚ) = n := by
  unfold truncQ
  split
  · exact Int.floor_intCast n
  · rw [← Int.cast_neg, Int.floor_intCast]; ring

theorem satU64_eq_toNat (z : Int) (h0 : 0 ≤ z) (h1 : z ≤ 2 ^ 64 - 1) :
    satU64 z = z.toNat := by
  unfold satU64
  omega

/-- C10: `SeekAction::exec` converts its time argument with a factor of
`1e6` (script/action.rs:100), not the `1e9` used by `on progress` triggers
(script/mod.rs:266) and `move` commands, so a seek time of `t` lands at one
thousandth of the position `t` seconds would denote under the `1e9`
convention. -/
theorem seek_scales_by_1e6 (t : ℚ) (n : ℤ) (hn : t * 1000000 = (n : ℚ))
    (h0 : 0 ≤ n) (h2 : 1000 * n ≤ 2 ^ 64 - 1) :
    seekPosNanos t = n.toNat ∧ 1000 * seekPosNanos t = progressNanos t := by
  have h9 : t * 1000000000 = ((1000 * n : ℤ) : ℚ) := by
    push_cast
    rw [← hn]
    ring
  unfold seekPosNanos progressNanos
  rw [h9, truncQ_intCast, hn, truncQ_intCast]
  rw [satU64_eq_toNat n h0 (by omega), satU64_eq_toNat _ (by omega) (by omega)]
  refine ⟨rfl, by omega⟩

/-- Witness for `seek_scales_by_1e6` at `t = 2` seconds. -/
theorem seek_scales_by_1e6_witness :
    ((2 : ℚ) * 1000000 = ((2000000 : ℤ) : ℚ) ∧ 0 ≤ (2000000 : ℤ) ∧
      1000 * (2000000 : ℤ) ≤ 2 ^ 64 - 1) ∧
    seekPosNanos 2 = (2000000 : ℤ).toNat ∧
      1000 * seekPosNanos 2 = progressNanos 2 :=
  ⟨⟨by norm_num, by decide, by decide⟩,
    seek_scales_by_1e6 2 2000000 (by norm_num) (by decide) (by decide)⟩

/-- C7 counterexample: the play-state token `"stop"`, which the claim lists
as accepted, makes `PlayAction::exec` panic, while `"null"`, absent from the
claim, is accepted. -/
theorem play_stop_is_fatal :
    playExec "stop" = .crash "Unknown pipeline state: stop" ∧
      playExec "null" = .ok .null := by
  constructor <;> rfl

/-- C7 (amended): a parsed `act <pipe> play <state>` action stores the state
token unvalidated, and at execution time exactly the four tokens
`start`/`pause`/`ready`/`null` are accepted; any other token, including
`stop`, is a fatal (panic) condition. -/
theorem play_accepted_states (s : String) (pipes : List (String × GPipe))
    (p : String) (gp : GPipe) (hp : lookupA pipes p = some gp) :
    parse_single_event pipes ["act", p, "play", s] = .ok (.play p s) ∧
    ((∃ st, playExec s = .ok st) ↔
      s = "start" ∨ s = "pause" ∨ s = "ready" ∨ s = "null") ∧
    (s ≠ "start" → s ≠ "pause" → s ≠ "ready" → s ≠ "null" →
      playExec s = .crash ("Unknown pipeline state: " ++ s)) := by
  refine ⟨?_, ?_, ?_⟩
  · simp [parse_single_event, hp]
  · unfold playExec
    constructor
    · intro ⟨st, hst⟩
      split_ifs at hst <;> simp_all
    · intro h
      rcases h with h | h | h | h <;> subst h <;> simp
  · intro h1 h2 h3 h4
    unfold playExec
    rw [if_neg h1, if_neg h2, if_neg h3, if_neg h4]

/-- Witness for `play_accepted_states` at the token `"flush"`. -/
theorem play_accepted_states_witness :
    lookupA [("pipe1", GPipe.mk "pipe1" [])] "pipe1" = some (GPipe.mk "pipe1" []) ∧
    playExec "flush" = .crash ("Unknown pipeline state: " ++ "flush") :=
  ⟨by decide,
    (play_accepted_states "flush" [("pipe1", GPipe.mk "pipe1" [])] "pipe1"
      (GPipe.mk "pipe1" []) (by decide)).2.2
      (by decide) (by decide) (by decide) (by decide)⟩

/-- C9 counterexample: the claim gives `ParsedSetting::Int` an `i64` payload,
but the source declares `Int(i32)` (script/mod.rs:31): the raw-setting parser
rejects `2147483648 = 2^31`, a value well inside the `i64` range. -/
theorem parsedSetting_int_is_not_i64 :
    parseRawSetting "int" "2147483648" = .error "Failed to parse setting as int" ∧
    -(2 ^ 63) ≤ (2147483648 : ℤ) ∧ (2147483648 : ℤ) < 2 ^ 63 := by
  refine ⟨by decide, by decide, by decide⟩

theorem parseI32_bounds (v : String) (n : ℤ) (h : parseI32 v = some n) :
    -(2 ^ 31) ≤ n ∧ n < 2 ^ 31 := by
  unfold parseI32 at h
  split at h
  · split_ifs at h with hb
    cases h; exact hb
  · cases h

/-- C9 (amended): `ParsedSetting` is a tagged union of exactly three variants
`Int(i32)` | `Float(f64)` | `String`; an `int`-tagged raw setting is accepted
exactly when it parses into the `i32` range, so every `Int` payload fits in
32 bits.  (Immutability is structural: a constructed value is never written
through.) -/
theorem parsedSetting_three_variants :
    (∀ ps : ParsedSetting, (∃ n, ps = .Int n) ∨ (∃ q, ps = .Float q) ∨
      (∃ s, ps = .String s)) ∧
    (∀ v : String,
      (∃ n, parseRawSetting "int" v = .ok (.Int n) ∧ -(2 ^ 31) ≤ n ∧ n < 2 ^ 31) ∨
      parseRawSetting "int" v = .error "Failed to parse setting as int") := by
  constructor
  · intro ps
    cases ps with
    | Int n => exact Or.inl ⟨n, rfl⟩
    | Float q => exact Or.inr (Or.inl ⟨q, rfl⟩)
    | String s => exact Or.inr (Or.inr ⟨s, rfl⟩)
  · intro v
    unfold parseRawSetting
    rcases hv : parseI32 v with - | n
    · right; simp
    · left
      obtain ⟨hl, hr⟩ := parseI32_bounds v n hv
      exact ⟨n, by simp, hl, hr⟩

theorem parseUsize_lt (s : String) (k : Nat) (h : parseUsize s = some k) :
    k < 2 ^ 64 := by
  unfold parseUsize at h
  split at h
  · split_ifs at h with hb
    cases h; exact hb
  · cases h

/-- Support: an in-range `$k` reference resolves to the k-th argument,
1-indexed (script/mod.rs:93-98). -/
theorem resolveVal_in_range (args : List String) (val : String)
    (rest : List Char) (k : Nat) (hpre : val.data = '$' :: rest)
    (hk : parseUsize (String.mk rest) = some k)
    (h1 : 1 ≤ k) (h2 : k ≤ args.length) (v : String)
    (hv : args.get? (k - 1) = some v) :
    resolveVal args val = .ok v := by
  have hlt := parseUsize_lt _ _ hk
  have hi : (k + (2 ^ 64 - 1)) % 2 ^ 64 = k - 1 := by omega
  rw [List.get?_eq_some] at hv
  obtain ⟨hb, hg⟩ := hv
  unfold resolveVal
  rw [hpre]
  simp only [hk, hi]
  rw [if_neg (by omega)]
  rw [dif_pos hb, hg]

/-- C2: resolution of `$K` value references in `Template::generate`.  `$1`
and `$2` resolve 1-indexed, `$K` with `K > args.len()` is a reported error —
but `$0` passes the bound check at script/mod.rs:95 and panics in
`args[index - 1]` (usize underflow / out-of-bounds) instead of failing with
a reported parse error, both at the resolver and through `generate`. -/
theorem dollar_zero_panics :
    resolveVal ["a", "b"] "$1" = .ok "a" ∧
    resolveVal ["a", "b"] "$2" = .ok "b" ∧
    resolveVal ["a", "b"] "$3" =
      .error "Argument index greater than number of arguments" ∧
    resolveVal ["a"] "$0" = .crash "index out of bounds" ∧
    Template.generate (fun _ => .ok (GPipe.mk "" []))
      (Template.mk "desc" 1 [("raw", [("p", "string", "$0")])]) "n" ["a"] =
      .crash "index out of bounds" := by
  refine ⟨by decide, by decide, by decide, by decide, by decide⟩

/-- C3: instantiating a template with the wrong number of arguments fails
with the argument-count error before any engine call (the result is this
error for every behavior of the abstracted `parse_launch`), and the `new`
command handler propagates the error without inserting a pipe. -/
theorem generate_arg_count_guard (render : String → Outcome GPipe)
    (t : Template) (name : String) (args : List String)
    (h : args.length ≠ t.arg_count) :
    Template.generate render t name args = .error "Incorrect number of arguments" ∧
    (∀ blocks pipes key, lookupA blocks key = some t →
      processNew render blocks pipes key name args =
        .error ("block.generate: " ++ "Incorrect number of arguments")) := by
  have hg : Template.generate render t name args =
      .error "Incorrect number of arguments" := by
    unfold Template.generate
    rw [if_pos h]
  refine ⟨hg, ?_⟩
  intro blocks pipes key hk
  unfold processNew
  rw [hk]
  simp only [hg]

/-- Witness for `generate_arg_count_guard`: a 2-argument template applied to
one argument. -/
theorem generate_arg_count_guard_witness :
    (["a"].length ≠ (Template.mk "p" 2 []).arg_count) ∧
    Template.generate (fun _ => .ok (GPipe.mk "" [])) (Template.mk "p" 2 [])
      "n" ["a"] = .error "Incorrect number of arguments" :=
  ⟨by decide,
    (generate_arg_count_guard (fun _ => .ok (GPipe.mk "" []))
      (Template.mk "p" 2 []) "n" ["a"] (by decide)).1⟩

/-- C4: a `wrap` block whose next line begins with the closing sentinel
`parw` yields an empty but valid action list (whatever follows the sentinel
token on that line is ignored), while a `wrap` block that exhausts the line
iterator without a sentinel panics (`cmd_iter.next().unwrap()` at
script/action.rs:181) instead of returning a reported parse failure. -/
theorem wrap_exhaustion_panics :
    parse_leading_event [] ["wrap"] ["parw"] = .ok ([], []) ∧
    parse_leading_event [] ["wrap"] ["parw trailing words", "next"] =
      .ok ([], ["next"]) ∧
    parse_leading_event [] ["wrap"] [] = .crash "unwrap on None" := by
  refine ⟨by decide, by decide, by decide⟩

theorem fireTick_cons_mem {name : String} {nanos : Nat}
    {rest : List (String × Nat)} {pos : String → Option Int}
    {fired : List (String × Nat)} (hmem : (name, nanos) ∈ fired) :
    fireTick ((name, nanos) :: rest) pos fired = fireTick rest pos fired := by
  simp [fireTick, hmem]

theorem fireTick_cons_unavail {name : String} {nanos : Nat}
    {rest : List (String × Nat)} {pos : String → Option Int}
    {fired : List (String × Nat)} (hmem : (name, nanos) ∉ fired)
    (hpos : pos name = none) :
    fireTick ((name, nanos) :: rest) pos fired = fireTick rest pos fired := by
  simp [fireTick, hmem, hpos]

theorem fireTick_cons_fire {name : String} {nanos : Nat}
    {rest : List (String × Nat)} {pos : String → Option Int}
    {fired : List (String × Nat)} {d : Int} (hmem : (name, nanos) ∉ fired)
    (hpos : pos name = some d) (hgt : d > toI64 nanos) :
    fireTick ((name, nanos) :: rest) pos fired =
      ((name, nanos) :: (fireTick rest pos ((name, nanos) :: fired)).1,
        (fireTick rest pos ((name, nanos) :: fired)).2) := by
  simp [fireTick, hmem, hpos, hgt]

theorem fireTick_cons_low {name : String} {nanos : Nat}
    {rest : List (String × Nat)} {pos : String → Option Int}
    {fired : List (String × Nat)} {d : Int} (hmem : (name, nanos) ∉ fired)
    (hpos : pos name = some d) (hgt : ¬d > toI64 nanos) :
    fireTick ((name, nanos) :: rest) pos fired = fireTick rest pos fired := by
  simp [fireTick, hmem, hpos, hgt]

theorem fireTick_fired_mono (events : List (String × Nat))
    (pos : String → Option Int) (fired : List (String × Nat))
    (k : String × Nat) (h : k ∈ fired) :
    k ∈ (fireTick events pos fired).2 := by
  induction events generalizing fired with
  | nil => simpa [fireTick]
  | cons hd tl ih =>
    obtain ⟨name, nanos⟩ := hd
    by_cases hmem : (name, nanos) ∈ fired
    · rw [fireTick_cons_mem hmem]; exact ih fired h
    · rcases hpos : pos name with - | d
      · rw [fireTick_cons_unavail hmem hpos]; exact ih fired h
      · by_cases hgt : d > toI64 nanos
        · rw [fireTick_cons_fire hmem hpos hgt]
          exact ih _ (List.mem_cons_of_mem _ h)
        · rw [fireTick_cons_low hmem hpos hgt]; exact ih fired h

theorem fireTick_out_fired (events : List (String × Nat))
    (pos : String → Option Int) (fired : List (String × Nat))
    (k : String × Nat) (h : k ∈ (fireTick events pos fired).1) :
    k ∈ (fireTick events pos fired).2 := by
  induction events generalizing fired with
  | nil => simp [fireTick] at h
  | cons hd tl ih =>
    obtain ⟨name, nanos⟩ := hd
    by_cases hmem : (name, nanos) ∈ fired
    · rw [fireTick_cons_mem hmem] at h ⊢; exact ih fired h
    · rcases hpos : pos name with - | d
      · rw [fireTick_cons_unavail hmem hpos] at h ⊢; exact ih fired h
      · by_cases hgt : d > toI64 nanos
        · rw [fireTick_cons_fire hmem hpos hgt] at h ⊢
          rcases List.mem_cons.mp h with h | h
          · exact fireTick_fired_mono tl pos _ k (h ▸ List.mem_cons_self _ _)
          · exact ih _ h
        · rw [fireTick_cons_low hmem hpos hgt] at h ⊢; exact ih fired h

theorem fireTick_not_out_of_fired (events : List (String × Nat))
    (pos : String → Option Int) (fired : List (String × Nat))
    (k : String × Nat) (h : k ∈ fired) :
    k ∉ (fireTick events pos fired).1 := by
  induction events generalizing fired with
  | nil => simp [fireTick]
  | cons hd tl ih =>
    obtain ⟨name, nanos⟩ := hd
    by_cases hmem : (name, nanos) ∈ fired
    · rw [fireTick_cons_mem hmem]; exact ih fired h
    · rcases hpos : pos name with - | d
      · rw [fireTick_cons_unavail hmem hpos]; exact ih fired h
      · by_cases hgt : d > toI64 nanos
        · rw [fireTick_cons_fire hmem hpos hgt]
          intro hk
          rcases List.mem_cons.mp hk with hk | hk
          · exact hmem (hk ▸ h)
          · exact ih _ (List.mem_cons_of_mem _ h) hk
        · rw [fireTick_cons_low hmem hpos hgt]; exact ih fired h

theorem fireTick_count_le_one (events : List (String × Nat))
    (pos : String → Option Int) (fired : List (String × Nat))
    (k : String × Nat) :
    (fireTick events pos fired).1.count k ≤ 1 := by
  induction events generalizing fired with
  | nil => simp [fireTick]
  | cons hd tl ih =>
    obtain ⟨name, nanos⟩ := hd
    by_cases hmem : (name, nanos) ∈ fired
    · rw [fireTick_cons_mem hmem]; exact ih fired
    · rcases hpos : pos name with - | d
      · rw [fireTick_cons_unavail hmem hpos]; exact ih fired
      · by_cases hgt : d > toI64 nanos
        · rw [fireTick_cons_fire hmem hpos hgt]
          rcases eq_or_ne k (name, nanos) with he | he
          · subst he
            rw [List.count_cons_self]
            have hout := fireTick_not_out_of_fired tl pos ((name, nanos) :: fired)
              (name, nanos) (List.mem_cons_self _ _)
            rw [← List.count_eq_zero] at hout
            omega
          · rw [List.count_cons_of_ne he]
            exact ih _
        · rw [fireTick_cons_low hmem hpos hgt]; exact ih fired

theorem fireTick_fire_condition (events : List (String × Nat))
    (pos : String → Option Int) (fired : List (String × Nat))
    (k : String × Nat) (h : k ∈ (fireTick events pos fired).1) :
    ∃ d, pos k.1 = some d ∧ toI64 k.2 < d := by
  induction events generalizing fired with
  | nil => simp [fireTick] at h
  | cons hd tl ih =>
    obtain ⟨name, nanos⟩ := hd
    by_cases hmem : (name, nanos) ∈ fired
    · rw [fireTick_cons_mem hmem] at h; exact ih fired h
    · rcases hpos : pos name with - | d
      · rw [fireTick_cons_unavail hmem hpos] at h; exact ih fired h
      · by_cases hgt : d > toI64 nanos
        · rw [fireTick_cons_fire hmem hpos hgt] at h
          rcases List.mem_cons.mp h with h | h
          · subst h
            exact ⟨d, hpos, hgt⟩
          · exact ih _ h
        · rw [fireTick_cons_low hmem hpos hgt] at h; exact ih fired h

theorem fireRun_fired_count_zero (events : List (String × Nat))
    (ticks : List (String → Option Int)) (fired : List (String × Nat))
    (k : String × Nat) (h : k ∈ fired) :
    (fireRun events ticks fired).count k = 0 := by
  induction ticks generalizing fired with
  | nil => simp [fireRun]
  | cons pos ticks ih =>
    simp only [fireRun, List.count_append]
    have h1 := fireTick_not_out_of_fired events pos fired k h
    rw [← List.count_eq_zero] at h1
    rw [h1, ih _ (fireTick_fired_mono events pos fired k h)]

theorem fireRun_count_le_one (events : List (String × Nat))
    (ticks : List (String → Option Int)) (fired : List (String × Nat))
    (k : String × Nat) :
    (fireRun events ticks fired).count k ≤ 1 := by
  induction ticks generalizing fired with
  | nil => simp [fireRun]
  | cons pos ticks ih =>
    simp only [fireRun, List.count_append]
    by_cases hk : k ∈ (fireTick events pos fired).1
    · have h2 := fireRun_fired_count_zero events ticks _ k
        (fireTick_out_fired events pos fired k hk)
      have h1 := fireTick_count_le_one events pos fired k
      omega
    · rw [List.count_eq_zero.mpr hk]
      have := ih (fireTick events pos fired).2
      omega

/-- C1 (amended): across a whole run from an empty fired-set, every
`(pipe, nanos)` time-event entry fires at most once, however many ticks
observe the crossing; an entry fires on a tick only if that tick's position
query returned a value strictly above the `u64 as i64` image of `nanos`
(which equals `nanos` itself whenever `nanos < 2^63`); and an entry whose
position query is unavailable is skipped on that tick. -/
theorem time_events_fire_at_most_once (events : List (String × Nat))
    (ticks : List (String → Option Int)) :
    (∀ k, (fireRun events ticks []).count k ≤ 1) ∧
    (∀ k (pos : String → Option Int) fired, k ∈ (fireTick events pos fired).1 →
      ∃ d, pos k.1 = some d ∧ toI64 k.2 < d ∧ (k.2 < 2 ^ 63 → (k.2 : Int) < d)) ∧
    (∀ k (pos : String → Option Int) fired, pos k.1 = none →
      k ∉ (fireTick events pos fired).1) := by
  refine ⟨fun k => fireRun_count_le_one events ticks [] k, ?_, ?_⟩
  · intro k pos fired h
    obtain ⟨d, hpos, hgt⟩ := fireTick_fire_condition events pos fired k h
    refine ⟨d, hpos, hgt, fun hsmall => ?_⟩
    unfold toI64 at hgt
    rw [if_pos hsmall] at hgt
    exact hgt
  · intro k pos fired hnone h
    obtain ⟨d, hpos, -⟩ := fireTick_fire_condition events pos fired k h
    rw [hnone] at hpos
    cases hpos

/-- Witness for `time_events_fire_at_most_once`: a `("p", 5)` entry fires on
a tick whose position query answers `10`. -/
theorem time_events_fire_at_most_once_witness :
    (("p", 5) ∈ (fireTick [("p", 5)] (fun _ => some 10) []).1) ∧
    ∃ d, (fun (_ : String) => some (10 : Int)) "p" = some d ∧
      toI64 5 < d ∧ ((5 : Nat) < 2 ^ 63 → ((5 : Nat) : Int) < d) :=
  ⟨by decide,
    (time_events_fire_at_most_once [("p", 5)] []).2.1 ("p", 5)
      (fun _ => some 10) [] (by decide)⟩

/-- C1 counterexample: the threshold `2^63` wraps to `-2^63` in the
`u64 as i64` cast at gtk_manage/mod.rs:160, so the entry fires on a tick
whose queried position is `0` even though `0` does not strictly exceed the
threshold. -/
theorem time_event_threshold_wraps :
    fireRun [("p", 2 ^ 63)] [fun _ => some 0] [] = [("p", 2 ^ 63)] ∧
    ¬(((2 ^ 63 : Nat) : Int) < 0) := by
  exact ⟨by decide, by decide⟩

theorem collectRemove_shift {α : Type} (ret : α → Bool) (xs : List α) (k : Nat) :
    collectRemove ret xs (k + 1) = (collectRemove ret xs k).map (· + 1) := by
  induction xs generalizing k with
  | nil => simp [collectRemove]
  | cons x xs ih =>
    simp only [collectRemove]
    by_cases h : ret x <;> simp [h, ih (k + 1), ih k]

theorem collectRemove_ge {α : Type} (ret : α → Bool) (xs : List α) (k : Nat) :
    ∀ i ∈ collectRemove ret xs k, k ≤ i := by
  induction xs generalizing k with
  | nil => simp [collectRemove]
  | cons x xs ih =>
    intro i hi
    simp only [collectRemove] at hi
    by_cases h : ret x
    · rw [if_pos h] at hi
      rcases List.mem_cons.mp hi with hi | hi
      · omega
      · have := ih (k + 1) i hi
        omega
    · rw [if_neg h] at hi
      have := ih (k + 1) i hi
      omega

theorem collectRemove_sorted {α : Type} (ret : α → Bool) (xs : List α) (k : Nat) :
    (collectRemove ret xs k).Pairwise (· < ·) := by
  induction xs generalizing k with
  | nil => simp [collectRemove]
  | cons x xs ih =>
    simp only [collectRemove]
    by_cases h : ret x
    · rw [if_pos h]
      refine List.Pairwise.cons ?_ (ih (k + 1))
      intro j hj
      have := collectRemove_ge ret xs (k + 1) j hj
      omega
    · rw [if_neg h]
      exact ih (k + 1)

theorem removeWithOffset_map_succ {α : Type} (idxs : List Nat) (l : List α)
    (off : Nat) :
    removeWithOffset l (idxs.map (· + 1)) (off + 1) = removeWithOffset l idxs off := by
  induction idxs generalizing l off with
  | nil => rfl
  | cons i rest ih =>
    simp only [List.map, removeWithOffset, Nat.succ_sub_succ]
    exact ih _ _

theorem removeWithOffset_cons_keep {α : Type} (idxs : List Nat) (x : α)
    (l : List α) (k : Nat) (h1 : ∀ i ∈ idxs, k < i)
    (h2 : idxs.Pairwise (· < ·)) :
    removeWithOffset (x :: l) idxs k = x :: removeWithOffset l idxs (k + 1) := by
  induction idxs generalizing l k with
  | nil => rfl
  | cons i rest ih =>
    have hk : k < i := h1 i (List.mem_cons_self _ _)
    obtain ⟨hlt, hpw⟩ := List.pairwise_cons.mp h2
    simp only [removeWithOffset]
    have hsub : i - k = (i - (k + 1)) + 1 := by omega
    rw [hsub, List.eraseIdx_cons_succ]
    exact ih _ (k + 1) (fun j hj => by have := hlt j hj; omega) hpw

theorem removeWithOffset_collect {α : Type} (ret : α → Bool) (l : List α)
    (k : Nat) :
    removeWithOffset l (collectRemove ret l k) k = l.filter (fun x => !ret x) := by
  induction l generalizing k with
  | nil => rfl
  | cons x xs ih =>
    by_cases h : ret x
    · simp only [collectRemove, if_pos h, removeWithOffset, Nat.sub_self,
        List.eraseIdx_cons_zero]
      rw [ih (k + 1), List.filter_cons_of_neg (by simp [h])]
    · simp only [collectRemove, if_neg h]
      rw [removeWithOffset_cons_keep _ x xs k
        (fun i hi => by have := collectRemove_ge ret xs (k + 1) i hi; omega)
        (collectRemove_sorted ret xs (k + 1))]
      rw [ih (k + 1), List.filter_cons_of_pos (by simp [h])]

theorem movingSurvivors_eq_filter (windows : List String)
    (pos : MPart → Option Int) (parts : List MPart) :
    movingSurvivors windows pos parts =
      parts.filter (fun q => !(decide (partBranch windows q (pos q) = .finish))) :=
  removeWithOffset_collect _ parts 0

/-- C5 (amended): for an active `MovingPart` whose window exists, a queried
position before the start time moves nothing and does not retire the part; a
position strictly after the end time snaps the window to exactly
`(end_x, end_y)` and retires the part — the pass removes exactly the parts
whose branch was `finish`, so a retired part is not in the survivor list and
is never evaluated again.  At a position exactly equal to the end time the
part takes the interpolation branch instead and is not retired. -/
theorem moving_part_boundaries (windows : List String) (p : MPart) (t : Int)
    (hw : p.window ∈ windows) :
    (t < p.start → partMove windows p (some t) = none ∧
      partBranch windows p (some t) ≠ .finish) ∧
    (p.start ≤ t → t > p.end_ →
      partMove windows p (some t) = some (p.end_x, p.end_y) ∧
      partBranch windows p (some t) = .finish) ∧
    (∀ pos parts, movingSurvivors windows pos parts =
      parts.filter (fun q => !(decide (partBranch windows q (pos q) = .finish)))) := by
  refine ⟨?_, ?_, fun pos parts => movingSurvivors_eq_filter windows pos parts⟩
  · intro hlt
    constructor
    · simp [partMove, hw, hlt]
    · simp [partBranch, hw, hlt]
  · intro hge hgt
    have hnlt : ¬t < p.start := by omega
    constructor
    · simp [partMove, hw, hnlt, hgt]
    · simp [partBranch, hw, hnlt, hgt]

/-- Witness for `moving_part_boundaries`: a part queried one nanosecond past
its end time snaps to `(7, 9)` and is retired. -/
theorem moving_part_boundaries_witness :
    ((MPart.mk "p" "w" 0 100 0 7 0 9 "mcos" "mcos").window ∈ ["w"] ∧
      (MPart.mk "p" "w" 0 100 0 7 0 9 "mcos" "mcos").start ≤ (101 : Int) ∧
      (101 : Int) > (MPart.mk "p" "w" 0 100 0 7 0 9 "mcos" "mcos").end_) ∧
    partMove ["w"] (MPart.mk "p" "w" 0 100 0 7 0 9 "mcos" "mcos") (some 101) =
      some (7, 9) ∧
    partBranch ["w"] (MPart.mk "p" "w" 0 100 0 7 0 9 "mcos" "mcos") (some 101) =
      .finish :=
  ⟨⟨by decide, by decide, by decide⟩,
    (moving_part_boundaries ["w"] (MPart.mk "p" "w" 0 100 0 7 0 9 "mcos" "mcos")
      101 (by decide)).2.1 (by decide) (by decide)⟩

/-- C5 counterexample: at a queried position exactly equal to the end time
(`time > part.end` is strict at gtk_manage/mod.rs:183) the part takes the
interpolation branch, is not retired, and survives the pass, contradicting
the claim that it is snapped and retired at or after the end time. -/
theorem moving_part_not_retired_at_end :
    partBranch ["w"] (MPart.mk "p" "w" 0 100 0 7 0 9 "mcos" "mcos") (some 100) =
      .animate ∧
    movingSurvivors ["w"] (fun _ => some 100)
      [MPart.mk "p" "w" 0 100 0 7 0 9 "mcos" "mcos"] =
      [MPart.mk "p" "w" 0 100 0 7 0 9 "mcos" "mcos"] := by
  exact ⟨by decide, by decide⟩

theorem wrap32_range (z : Int) : -(2 ^ 31) ≤ wrap32 z ∧ wrap32 z < 2 ^ 31 := by
  unfold wrap32
  omega

theorem sat32_of_range (z : Int) (h1 : -(2 ^ 31) ≤ z) (h2 : z < 2 ^ 31) :
    sat32 z = z := by
  unfold sat32
  omega

theorem truncR_intCast (n : ℤ) : truncR (n : ℝ) = n := by
  unfold truncR
  split
  · exact Int.floor_intCast n
  · rw [← Int.cast_neg, Int.floor_intCast]; ring

theorem wrap32_absorb (s e : Int) (he1 : -(2 ^ 31) ≤ e) (he2 : e < 2 ^ 31) :
    wrap32 (s + wrap32 (e - s)) = e := by
  unfold wrap32
  omega

/-- C6: inside the interval each axis is computed independently.  An axis
whose curve id is not the ease tag `"mcos"` receives the full delta, i.e. the
window lands exactly on that axis's end coordinate regardless of `frac`, and
an `"mcos"` axis is offset by `delta * (1 - cos(frac * 90°))` (the degree
form `to_radians(frac * 90)` equals `frac * π/2`). -/
theorem axis_curves (path : String) (s e : Int) (frac : ℝ)
    (he1 : -(2 ^ 31) ≤ e) (he2 : e < 2 ^ 31) :
    (path ≠ "mcos" → axisAbs path s e frac = e) ∧
    axisAbs "mcos" s e frac =
      wrap32 (s + sat32 (truncR ((wrap32 (e - s) : ℝ) *
        (1 - Real.cos (frac * Real.pi / 2))))) := by
  constructor
  · intro hne
    unfold axisAbs axisOffset
    rw [if_neg hne, truncR_intCast,
      sat32_of_range _ (wrap32_range (e - s)).1 (wrap32_range (e - s)).2,
      wrap32_absorb s e he1 he2]
  · unfold axisAbs axisOffset
    rw [if_pos rfl]
    have harg : toRadians (frac * 90) = frac * Real.pi / 2 := by
      unfold toRadians
      ring
    rw [harg]

/-- Witness for `axis_curves`: a linear-tagged axis from 3 to 10 lands on 10
at an interior fraction. -/
theorem axis_curves_witness :
    ((-(2 ^ 31) : Int) ≤ 10 ∧ (10 : Int) < 2 ^ 31 ∧ "lin" ≠ "mcos") ∧
    axisAbs "lin" 3 10 ((37 : ℝ) / 100) = 10 :=
  ⟨⟨by decide, by decide, by decide⟩,
    (axis_curves "lin" 3 10 ((37 : ℝ) / 100) (by decide) (by decide)).1
      (by decide)⟩

theorem parseMoveFields_ne_exit (w k : String) (args : List String) :
    parseMoveFields w k args ≠ .exit := by
  unfold parseMoveFields
  intro h
  (repeat' split at h) <;> simp_all

/-- C8 (amended): draining one runtime message: `" terminate"` exits the
process; no other message produces the exit effect; an unknown window name or
an unknown action verb is a reported failure (the tick loop logs it and
continues); a `move` whose pipe is unknown is likewise reported; a `move`
with nine well-formed positional fields appends a `MovingPart` whose two time
fields are scaled by `1e9` and truncated; but a `move` with a malformed
numeric field panics (`parse().unwrap()`, gtk_manage/mod.rs:241-246) instead
of being reported. -/
theorem handle_message_dispatch (pipes windows : List String) (msg : String)
    (w v : String) (args : List String)
    (hterm : msg ≠ " terminate") (hpre : msg ≠ "pre")
    (htok : tokens msg = w :: v :: args) :
    handle_message pipes windows " terminate" = .exit ∧
    handle_message pipes windows msg ≠ .exit ∧
    (v = "show" → w ∉ windows →
      handle_message pipes windows msg = .failed ("Unknown window: " ++ v)) ∧
    (v ≠ "show" → v ≠ "move" →
      handle_message pipes windows msg = .failed ("Unknown action: " ++ v)) ∧
    (v = "move" → ∀ key, args.get? 0 = some key → key ∉ pipes →
      handle_message pipes windows msg = .failed ("Pipeline not found: " ++ key)) ∧
    (v = "move" → ∀ key a1 a2 a3 a4 a5 a6 a7 a8 rest,
      args = key :: a1 :: a2 :: a3 :: a4 :: a5 :: a6 :: a7 :: a8 :: rest →
      key ∈ pipes →
      ∀ t1 x1 y1 t2 x2 y2,
        parseQ a1 = some t1 → parseI32 a2 = some x1 → parseI32 a3 = some y1 →
        parseQ a4 = some t2 → parseI32 a5 = some x2 → parseI32 a6 = some y2 →
        handle_message pipes windows msg =
          .moved (MPart.mk key w (truncQ (t1 * 1000000000))
            (truncQ (t2 * 1000000000)) x1 x2 y1 y2 a7 a8)) ∧
    (v = "move" → ∀ key a1 rest, args = key :: a1 :: rest → key ∈ pipes →
      parseQ a1 = none →
      handle_message pipes windows msg = .crash "unwrap on parse failure") := by
  have hbase : handle_message pipes windows msg =
      (if v = "show" then
        (if w ∈ windows then .shown w else .failed ("Unknown window: " ++ v))
      else if v = "move" then
        (match args.get? 0 with
          | none => .crash "index out of bounds"
          | some key =>
            if key ∈ pipes then parseMoveFields w key args
            else .failed ("Pipeline not found: " ++ key))
      else .failed ("Unknown action: " ++ v)) := by
    unfold handle_message
    rw [if_neg hterm, if_neg hpre, htok]
  refine ⟨rfl, ?_, ?_, ?_, ?_, ?_, ?_⟩
  · rw [hbase]
    split_ifs
    · simp
    · simp
    · rcases hget : args.get? 0 with - | key <;> simp only [hget]
      · simp
      · split_ifs
        · exact parseMoveFields_ne_exit w key args
        · simp
    · simp
  · intro hv hw
    rw [hbase, if_pos hv, if_neg hw]
  · intro h1 h2
    rw [hbase, if_neg h1, if_neg h2]
  · intro hv key hget hkey
    rw [hbase, if_neg (by rw [hv]; decide), if_pos hv]
    simp only [hget]
    rw [if_neg hkey]
  · intro hv key a1 a2 a3 a4 a5 a6 a7 a8 rest hargs hkey t1 x1 y1 t2 x2 y2
      ht1 hx1 hy1 ht2 hx2 hy2
    subst hargs
    rw [hbase, if_neg (by rw [hv]; decide), if_pos hv]
    simp only [List.get?]
    rw [if_pos hkey]
    unfold parseMoveFields
    simp only [List.get?, ht1, hx1, hy1, ht2, hx2, hy2]
  · intro hv key a1 rest hargs hkey h1
    subst hargs
    rw [hbase, if_neg (by rw [hv]; decide), if_pos hv]
    simp only [List.get?]
    rw [if_pos hkey]
    unfold parseMoveFields
    simp only [List.get?, h1]

/-- Witness for `handle_message_dispatch`: the message `"w foo"` is an
unknown-action failure that the tick loop merely logs. -/
theorem handle_message_dispatch_witness :
    ("w foo" ≠ " terminate" ∧ "w foo" ≠ "pre" ∧
      tokens "w foo" = ["w", "foo"] ∧ "foo" ≠ "show" ∧ "foo" ≠ "move") ∧
    handle_message [] [] "w foo" = .failed ("Unknown action: " ++ "foo") :=
  ⟨⟨by decide, by decide, by decide, by decide, by decide⟩,
    (handle_message_dispatch [] [] "w foo" "w" "foo" [] (by decide) (by decide)
      (by decide)).2.2.2.1 (by decide) (by decide)⟩

/-- C8 counterexample: a `move` message whose first time field is the
malformed literal `"abc"` panics in `parse::<f32>().unwrap()`
(gtk_manage/mod.rs:241), aborting the process instead of being reported and
letting the tick loop continue. -/
theorem move_malformed_field_panics :
    handle_message ["pipe1"] ["winA"] "winA move pipe1 abc 0 0 1 0 0 lin lin" =
      .crash "unwrap on parse failure" := by
  decide
